import Mathlib

/-!
Shallow embedding of the BED-file parsing core of `src/input.h`
(`LineByLineReader` and `read_points_from_bed_file`).

Lines of text are modelled as `List Char`.  A `FILE *` handle driven through
`getline` is modelled as the list of lines it will deliver, together with how
the stream ends afterwards: clean end-of-file, or an I/O error carrying an
`errno` code and the system message for it.

C++ exceptions are modelled by `Except`: `std::runtime_error` and
`std::system_error` (which, in C++, is a subclass of `std::runtime_error` and
is therefore caught by a `catch (const std::runtime_error &)` clause) become
the two constructors of `CppError`.

The helpers `trim_ws`, `starts_with`, `split` and `parse_int` live in the
repository's `utils.h`, and the types `Point`, `SortedVec` and
`ProcessRegionData` in `types.h`; neither file is part of the sources here,
so those definitions are modelled from the spec (each is marked below).
Integer positions are modelled as unbounded `Int`; `std::size_t` arithmetic
(the reader's line counter) is modelled exactly, as `Nat` reduced modulo
`2 ^ 64` at each point where C++ performs `size_t` arithmetic.
-/

namespace HawkesInput

/-- Modulus of `std::size_t` arithmetic (64-bit platform). -/
def size_t_mod : Nat := 2 ^ 64

/-- The method `LineByLineReader::current_line_number`: the source returns
`lines_read_ - 1` where `lines_read_` is a `std::size_t`; with `lines_read`
successful reads so far the stored counter is `lines_read % size_t_mod` and
the subtraction wraps modulo `2 ^ 64`.  There is no guard for
`lines_read = 0`. -/
def current_line_number (lines_read : Nat) : Nat :=
  (lines_read + (size_t_mod - 1)) % size_t_mod

/-- Modelled from the spec: whitespace predicate of the missing `utils.h`,
used by `trim_ws` ("Trim surrounding whitespace from the raw line"); the
standard C whitespace set. -/
def is_space_char (c : Char) : Bool :=
  c = ' ' || c = '\t' || c = '\n' || c = '\r' || c = '\x0b' || c = '\x0c'

/-- Modelled from the spec: `trim_whitespace(text) -> text` of the missing
`utils.h`; removes surrounding (leading and trailing) whitespace. -/
def trim_ws (l : List Char) : List Char :=
  ((l.dropWhile is_space_char).reverse.dropWhile is_space_char).reverse

/-- Modelled from the spec: `starts_with(char, text)` of the missing
`utils.h`; true iff the text is nonempty and its first character is `c`. -/
def starts_with (c : Char) : List Char → Bool
  | [] => false
  | x :: _ => x = c

/-- Modelled from the spec: `split(delimiter, text) -> ordered sequence of
text slices` of the missing `utils.h`; splits at every occurrence of the
delimiter, keeping empty slices, so the result always has one more element
than the number of delimiters. -/
def split (d : Char) : List Char → List (List Char)
  | [] => [[]]
  | c :: cs =>
    match split d cs with
    | [] => [[]]
    | f :: rest => if c = d then [] :: f :: rest else (c :: f) :: rest

/-- Value of a decimal digit character, `none` for a non-digit. -/
def digit_val (c : Char) : Option Nat :=
  if '0' ≤ c && c ≤ '9' then some (c.toNat - '0'.toNat) else none

/-- Accumulate decimal digits left to right; fails on any non-digit. -/
def parse_digits_aux : List Char → Nat → Option Nat
  | [], acc => some acc
  | c :: cs, acc =>
    match digit_val c with
    | none => none
    | some d => parse_digits_aux cs (acc * 10 + d)

/-- A nonempty all-digit string as a natural number. -/
def parse_digits : List Char → Option Nat
  | [] => none
  | l => parse_digits_aux l 0

/-- Modelled from the spec: `parse_integer(text, field_label) -> integer or
error` of the missing `utils.h`; fields "parse as integers (decimal,
signed)".  An optional sign followed by at least one digit; anything else is
a parse failure. -/
def parse_int : List Char → Option Int
  | '-' :: rest => (parse_digits rest).map (fun n => -(n : Int))
  | '+' :: rest => (parse_digits rest).map (fun n => (n : Int))
  | l => (parse_digits l).map (fun n => (n : Int))

/-- Message of the exception thrown at `input.h:128`. -/
def malformed_line_msg : List Char :=
  "Line must contain at least 3 fields: (region, start, end)".toList

/-- Message of the exception thrown at `input.h:134`. -/
def invalid_interval_msg : List Char :=
  "interval bounds are invalid".toList

/-- Message of the exception thrown at `input.h:139`. -/
def empty_region_name_msg : List Char :=
  "empty string as a region name".toList

/-- Modelled from the spec: message of the `std::runtime_error` thrown by the
missing `utils.h` `parse_int` on a non-integer field; it "carries the field's
semantic label". -/
def invalid_integer_msg (label : List Char) : List Char :=
  "not a valid integer: ".toList ++ label

/-- Semantic label passed for field 1 at `input.h:131`. -/
def interval_position_start_label : List Char := "interval_position_start".toList

/-- Semantic label passed for field 2 at `input.h:132`. -/
def interval_position_end_label : List Char := "interval_position_end".toList

/-- Exceptions observable in `read_points_from_bed_file`:
`std::runtime_error` carries a message; `std::system_error` (thrown by
`LineByLineReader::read_next_line` on an I/O failure) carries the `errno`
code and the system category's message for it.  In C++, `std::system_error`
derives from `std::runtime_error`, so a `catch (const std::runtime_error &)`
clause catches both. -/
inductive CppError where
  | runtimeError (msg : List Char)
  | systemError (code : Nat) (msg : List Char)
deriving DecidableEq

/-- The `std::exception::what()` text: the stored message. -/
def CppError.what : CppError → List Char
  | .runtimeError m => m
  | .systemError _ m => m

/-- Whether the dynamic type of the exception is `std::system_error` (the
programmatic mark of an I/O error, as opposed to the parse errors, which are
plain `std::runtime_error`). -/
def CppError.is_system_error : CppError → Bool
  | .runtimeError _ => false
  | .systemError _ _ => true

/-- Modelled from the spec: region entry of the missing `types.h`
(`ProcessRegionData<Point>`), "an immutable pair of (region name, sorted
point collection)".  Points are modelled as unbounded integers. -/
structure ProcessRegionData where
  name : List Char
  points : List Int
deriving DecidableEq

/-- Modelled from the spec: `SortedVec<Point>::from_unsorted` of the missing
`types.h`, which sorts the working sequence ascending at sealing time
("sort its points ascending, wrap as a region entry"). -/
def SortedVec.from_unsorted (l : List Int) : List Int :=
  List.insertionSort (fun a b => a ≤ b) l

/-- The derived point of `input.h:149`:
`(interval_end_position - interval_start_position) / 2` with C++ integer
division, which truncates toward zero (`Int.tdiv`). -/
def derived_point (s e : Int) : Int := Int.tdiv (e - s) 2

/-- The mutable locals of `read_points_from_bed_file` that survive from one
loop iteration to the next: `regions`, `current_region_points`,
`current_region_name` (`input.h:114-118`). -/
structure AggState where
  regions : List ProcessRegionData
  current_region_points : List Int
  current_region_name : List Char
deriving DecidableEq

/-- The initial state of the locals: empty region list, empty accumulator,
empty current name. -/
def init_state : AggState := ⟨[], [], []⟩

/-- One iteration of the `while` body of `read_points_from_bed_file`
(`input.h:122-150`) on the raw text of one line: trim, skip comments, split
on tabs, check the field count, parse both positions, check the interval,
handle a region-name boundary, and append the derived point.  Errors are the
`std::runtime_error`s thrown in the body (including those of `parse_int`). -/
def process_line (raw : List Char) (st : AggState) : Except CppError AggState :=
  let line := trim_ws raw
  if starts_with '#' line then .ok st
  else
    let fields := split '\t' line
    if fields.length < 3 then .error (.runtimeError malformed_line_msg)
    else
      let region_name := fields.getD 0 []
      match parse_int (fields.getD 1 []) with
      | none => .error (.runtimeError (invalid_integer_msg interval_position_start_label))
      | some interval_start_position =>
        match parse_int (fields.getD 2 []) with
        | none => .error (.runtimeError (invalid_integer_msg interval_position_end_label))
        | some interval_end_position =>
          if ¬ (interval_start_position < interval_end_position) then
            .error (.runtimeError invalid_interval_msg)
          else if region_name ≠ st.current_region_name then
            if region_name.isEmpty then .error (.runtimeError empty_region_name_msg)
            else
              .ok ⟨(if st.current_region_name.isEmpty then st.regions
                    else st.regions ++
                      [⟨st.current_region_name, SortedVec.from_unsorted st.current_region_points⟩]),
                   [derived_point interval_start_position interval_end_position],
                   region_name⟩
          else
            .ok ⟨st.regions,
                 st.current_region_points ++
                   [derived_point interval_start_position interval_end_position],
                 st.current_region_name⟩

/-- How the modelled stream behaves once its lines are exhausted: clean
end-of-file (`getline` returns -1 with `feof` set), or an I/O failure
(`getline` returns -1 with `errno = code`), which makes
`LineByLineReader::read_next_line` throw `std::system_error(code, msg)`. -/
inductive StreamEnd where
  | cleanEof
  | ioError (code : Nat) (msg : List Char)
deriving DecidableEq

/-- The modelled `FILE *`: the lines `getline` will successively deliver,
then the end behaviour. -/
structure BedFileStream where
  lines : List (List Char)
  ending : StreamEnd
deriving DecidableEq

/-- Prefix added by the fmt format call at `input.h:156`, with the line
number already evaluated to `n`; the wrapped message is this prefix followed
by the original `what()` text. -/
def parsing_at_line_msg (n : Nat) : List Char :=
  "Parsing BED file at line ".toList ++ (Nat.repr n).toList ++ ": ".toList

/-- Effect of the `catch` clause of `read_points_from_bed_file` (`input.h:153-157`):
any caught `std::runtime_error` (hence also any `std::system_error`) is
replaced by a fresh `std::runtime_error` whose message prepends
`reader.current_line_number () + 1` — evaluated in `std::size_t`
arithmetic — to the original `what()` text. -/
def wrap_line_context (lines_read : Nat) (e : CppError) : CppError :=
  .runtimeError
    (parsing_at_line_msg ((current_line_number lines_read + 1) % size_t_mod) ++ e.what)

/-- The read-process loop of `read_points_from_bed_file`
(`while (reader.read_next_line ()) ... return regions;`, `input.h:121-152`)
together with its surrounding `try`/`catch`.
`lines_read` is the reader's count of successful reads so far.  Reading a
line first increments the counter, then runs the body; a body error is
wrapped at the incremented count.  When the lines are exhausted: on clean
end-of-file the loop exits and the accumulated `regions` are returned as
they stand (the open accumulator is not sealed); on an I/O error the
`std::system_error` thrown by `read_next_line` is wrapped at the current,
non-incremented count. -/
def run_lines : List (List Char) → StreamEnd → Nat → AggState →
    Except CppError (List ProcessRegionData)
  | [], .cleanEof, _, st => .ok st.regions
  | [], .ioError c m, lines_read, _ => .error (wrap_line_context lines_read (.systemError c m))
  | l :: ls, ending, lines_read, st =>
    match process_line l st with
    | .ok st' => run_lines ls ending (lines_read + 1) st'
    | .error e => .error (wrap_line_context (lines_read + 1) e)

/-- The function `read_points_from_bed_file` (`input.h:113-158`) on the modelled stream:
fresh reader (zero lines read), empty locals, then the loop. -/
def read_points_from_bed_file (file : BedFileStream) :
    Except CppError (List ProcessRegionData) :=
  run_lines file.lines file.ending 0 init_state

/-- Sequential composition of loop bodies: run `process_line` over a list of
lines, stopping at the first error.  Used to state which prefix of the input
has been consumed successfully. -/
def process_all : List (List Char) → AggState → Except CppError AggState
  | [], st => .ok st
  | l :: ls, st =>
    match process_line l st with
    | .ok st' => process_all ls st'
    | .error e => .error e

/-- Decidable equality of parse outcomes, so that concrete runs of the
parser can be settled by evaluation. -/
instance instDecidableEqExcept {ε α : Type} [DecidableEq ε] [DecidableEq α] :
    DecidableEq (Except ε α)
  | .ok a, .ok b =>
    if h : a = b then .isTrue (by rw [h]) else .isFalse (by intro hc; cases hc; exact h rfl)
  | .ok _, .error _ => .isFalse (by intro hc; cases hc)
  | .error _, .ok _ => .isFalse (by intro hc; cases hc)
  | .error a, .error b =>
    if h : a = b then .isTrue (by rw [h]) else .isFalse (by intro hc; cases hc; exact h rfl)

/-!
Helper lemmas about the loop, shared by the claim theorems below.
-/

/-- A successfully consumed prefix of the input advances the loop: if
`process_all` takes `st` to `st'` over `ls₁`, the loop over `ls₁ ++ ls₂`
starting at `n` lines read equals the loop over `ls₂` starting at
`n + ls₁.length` lines read from `st'`. -/
theorem run_lines_append (ls₁ ls₂ : List (List Char)) (ending : StreamEnd)
    (n : Nat) (st st' : AggState) (h : process_all ls₁ st = .ok st') :
    run_lines (ls₁ ++ ls₂) ending n st = run_lines ls₂ ending (n + ls₁.length) st' := by
  induction ls₁ generalizing n st with
  | nil =>
    simp only [process_all, Except.ok.injEq] at h
    subst h
    simp
  | cons l ls ih =>
    simp only [process_all] at h
    cases hp : process_line l st with
    | error e => rw [hp] at h; simp at h
    | ok st₁ =>
      simp only [hp] at h
      simp only [List.cons_append, run_lines, hp, List.append_eq]
      rw [ih _ _ h]
      simp only [List.length_cons]
      have harith : n + 1 + ls.length = n + (ls.length + 1) := by omega
      rw [harith]

/-- In `std::size_t` arithmetic, `current_line_number () + 1` recovers the
count of lines read, for any count below `2 ^ 64` — including count `0`,
where the underflow to `2 ^ 64 - 1` wraps back to `0`. -/
theorem reported_line_add_one (k : Nat) (h : k < size_t_mod) :
    (current_line_number k + 1) % size_t_mod = k := by
  simp only [current_line_number, size_t_mod] at *
  omega

/-- For a count of lines read below `2 ^ 64`, the wrapped error is a plain
`std::runtime_error` whose message is the line-context prefix for that count
followed by the original `what()` text. -/
theorem wrap_line_context_eq (k : Nat) (h : k < size_t_mod) (e : CppError) :
    wrap_line_context k e = .runtimeError (parsing_at_line_msg k ++ e.what) := by
  simp only [wrap_line_context, reported_line_add_one k h]

/-- Exhaustive description of a successful loop-body iteration: either the
line was a comment and the state is unchanged, or some interval `(s, e)` with
`s < e` was parsed and the derived point was appended — to the open
accumulator (same region name), or to a freshly cleared accumulator, with
the previous accumulator either discarded (its name was empty) or sealed
sorted onto the region list. -/
theorem process_line_ok_cases (raw : List Char) (st st' : AggState)
    (h : process_line raw st = .ok st') :
    st' = st ∨
    ∃ s e : Int, s < e ∧
      ((st'.regions = st.regions ∧
        st'.current_region_points = st.current_region_points ++ [derived_point s e]) ∨
       (st'.regions = st.regions ∧
        st'.current_region_points = [derived_point s e]) ∨
       (st'.regions = st.regions ++
          [⟨st.current_region_name, SortedVec.from_unsorted st.current_region_points⟩] ∧
        st'.current_region_points = [derived_point s e])) := by
  simp only [process_line] at h
  split at h
  · left
    cases h
    rfl
  · split at h
    · simp at h
    · split at h
      · simp at h
      · rename_i x1 s hs1
        split at h
        · simp at h
        · rename_i x2 e he2
          split at h
          · simp at h
          · rename_i hge
            rw [not_not] at hge
            split at h
            · split at h
              · simp at h
              · cases h
                right
                refine ⟨s, e, hge, ?_⟩
                by_cases hn : st.current_region_name = []
                · exact Or.inr (Or.inl ⟨by simp [hn], rfl⟩)
                · exact Or.inr (Or.inr ⟨by simp [hn], rfl⟩)
            · cases h
              right
              exact ⟨s, e, hge, Or.inl ⟨rfl, rfl⟩⟩

/-- Sealing sorts: the point collection built by
`SortedVec.from_unsorted` is sorted non-decreasingly. -/
theorem sorted_from_unsorted (l : List Int) :
    List.Sorted (fun a b : Int => a ≤ b) (SortedVec.from_unsorted l) :=
  List.sorted_insertionSort _ l

/-- Sealing only permutes: membership in the sealed collection comes from
membership in the working sequence. -/
theorem mem_from_unsorted {p : Int} {l : List Int}
    (h : p ∈ SortedVec.from_unsorted l) : p ∈ l :=
  (List.perm_insertionSort (fun a b : Int => a ≤ b) l).mem_iff.mp h

/-- Validated intervals derive non-negative points: `s < e` makes
`(e - s) / 2` (truncating division) non-negative. -/
theorem derived_point_nonneg {s e : Int} (h : s < e) : 0 ≤ derived_point s e := by
  unfold derived_point
  exact Int.tdiv_nonneg (by omega) (by norm_num)

/-- Invariant of the loop: if every region already on the list is sorted,
then every region of a successful result is sorted. -/
theorem run_lines_ok_sorted (ls : List (List Char)) (ending : StreamEnd) (n : Nat)
    (st : AggState) (res : List ProcessRegionData)
    (hst : ∀ r ∈ st.regions, List.Sorted (fun a b : Int => a ≤ b) r.points)
    (h : run_lines ls ending n st = .ok res) :
    ∀ r ∈ res, List.Sorted (fun a b : Int => a ≤ b) r.points := by
  induction ls generalizing n st with
  | nil =>
    cases ending with
    | cleanEof =>
      simp only [run_lines, Except.ok.injEq] at h
      subst h
      exact hst
    | ioError c m => simp [run_lines] at h
  | cons l ls ih =>
    simp only [run_lines] at h
    cases hp : process_line l st with
    | error e => rw [hp] at h; simp at h
    | ok st₁ =>
      rw [hp] at h
      simp only at h
      apply ih (n + 1) st₁ _ h
      intro r hr
      rcases process_line_ok_cases l st st₁ hp with heq | ⟨s, e, _, hcase⟩
      · rw [heq] at hr; exact hst r hr
      · rcases hcase with ⟨hreg, _⟩ | ⟨hreg, _⟩ | ⟨hreg, _⟩
        · rw [hreg] at hr; exact hst r hr
        · rw [hreg] at hr; exact hst r hr
        · rw [hreg] at hr
          rcases List.mem_append.mp hr with h₁ | h₂
          · exact hst r h₁
          · have hr2 := List.mem_singleton.mp h₂
            subst hr2
            exact sorted_from_unsorted _

/-- Invariant of the loop: if every stored point (sealed or in the open
accumulator) is non-negative, then so is every point of a successful
result. -/
theorem run_lines_ok_nonneg (ls : List (List Char)) (ending : StreamEnd) (n : Nat)
    (st : AggState) (res : List ProcessRegionData)
    (hreg : ∀ r ∈ st.regions, ∀ p ∈ r.points, 0 ≤ p)
    (hcur : ∀ p ∈ st.current_region_points, 0 ≤ p)
    (h : run_lines ls ending n st = .ok res) :
    ∀ r ∈ res, ∀ p ∈ r.points, 0 ≤ p := by
  induction ls generalizing n st with
  | nil =>
    cases ending with
    | cleanEof =>
      simp only [run_lines, Except.ok.injEq] at h
      subst h
      exact hreg
    | ioError c m => simp [run_lines] at h
  | cons l ls ih =>
    simp only [run_lines] at h
    cases hp : process_line l st with
    | error e => rw [hp] at h; simp at h
    | ok st₁ =>
      rw [hp] at h
      simp only at h
      rcases process_line_ok_cases l st st₁ hp with heq | ⟨s, e, hse, hcase⟩
      · exact ih (n + 1) st₁ (heq ▸ hreg) (heq ▸ hcur) h
      · rcases hcase with ⟨hr1, hc1⟩ | ⟨hr1, hc1⟩ | ⟨hr1, hc1⟩
        · apply ih (n + 1) st₁ (hr1 ▸ hreg) _ h
          rw [hc1]
          intro p hp'
          rcases List.mem_append.mp hp' with hin | hin
          · exact hcur p hin
          · rw [List.mem_singleton.mp hin]; exact derived_point_nonneg hse
        · apply ih (n + 1) st₁ (hr1 ▸ hreg) _ h
          rw [hc1]
          intro p hp'
          rw [List.mem_singleton.mp hp']; exact derived_point_nonneg hse
        · apply ih (n + 1) st₁ _ _ h
          · rw [hr1]
            intro r hrmem
            rcases List.mem_append.mp hrmem with hin | hin
            · exact hreg r hin
            · have := List.mem_singleton.mp hin
              subst this
              intro p hpmem
              exact hcur p (mem_from_unsorted hpmem)
          · rw [hc1]
            intro p hp'
            rw [List.mem_singleton.mp hp']; exact derived_point_nonneg hse

/-- A fully consumed input leaves the loop at the end-of-lines case with the
counter advanced by the number of lines. -/
theorem run_lines_all_ok (ls : List (List Char)) (ending : StreamEnd) (n : Nat)
    (st st' : AggState) (h : process_all ls st = .ok st') :
    run_lines ls ending n st = run_lines [] ending (n + ls.length) st' := by
  have happ := run_lines_append ls [] ending n st st' h
  rwa [List.append_nil] at happ

/-!
Claim theorems.
-/

/-- C1 (evaluation at the failing input): with the single data line
`chr1\t10\t20` followed by clean end-of-file, the loop exits with the `chr1`
accumulator still open and `return regions;` returns the empty sequence —
the final contiguous run is dropped, not sealed and appended as the last
region entry (which would be `("chr1", [5])`). -/
theorem C1_eof_drops_open_accumulator :
    read_points_from_bed_file ⟨["chr1\t10\t20".toList], .cleanEof⟩ =
      .ok ([] : List ProcessRegionData) ∧
    ([] : List ProcessRegionData) ≠ [⟨"chr1".toList, [5]⟩] := by
  decide

/-- C2 (evaluation at the failing input): on the four lines `# header`,
`chr1\t10\t20`, `chr1\t30\t50`, `chr2\t5\t9`, the result contains only the
`chr1` entry `[5, 10]`; the claimed `("chr2", [2])` entry is missing because
the open `chr2` accumulator is dropped at end-of-file. -/
theorem C2_round_trip_eval :
    read_points_from_bed_file
        ⟨["# header".toList, "chr1\t10\t20".toList, "chr1\t30\t50".toList,
          "chr2\t5\t9".toList], .cleanEof⟩ =
      .ok [⟨"chr1".toList, [5, 10]⟩] ∧
    ([⟨"chr1".toList, [5, 10]⟩] : List ProcessRegionData) ≠
      [⟨"chr1".toList, [5, 10]⟩, ⟨"chr2".toList, [2]⟩] := by
  decide

/-- C7 (evaluation at the failing input): for the runs `A`, `B`, `A`, the
result holds exactly one entry named `A`: the second `A` run, being the last
run of the file, is dropped at end-of-file instead of appearing as a second
separate `A` entry. -/
theorem C7_second_run_dropped_when_final :
    read_points_from_bed_file
        ⟨["A\t0\t2".toList, "B\t0\t2".toList, "A\t0\t2".toList], .cleanEof⟩ =
      .ok [⟨"A".toList, [1]⟩, ⟨"B".toList, [1]⟩] ∧
    ([⟨"A".toList, [1]⟩, ⟨"B".toList, [1]⟩] : List ProcessRegionData).countP
        (fun r => r.name == "A".toList) = 1 := by
  decide

/-- C3 (counterexample): the single line `\t10\t20` is not rejected with the
empty-region-name error: it fails with the at-least-3-fields error at line 1
(the leading tab is trimmed as whitespace before splitting), and the two
error messages differ. -/
theorem C3_counterexample_tab_line_not_empty_name :
    read_points_from_bed_file ⟨["\t10\t20".toList], .cleanEof⟩ =
      .error (.runtimeError (parsing_at_line_msg 1 ++ malformed_line_msg)) ∧
    malformed_line_msg ≠ empty_region_name_msg := by
  decide

/-- C3 (amended): surrounding whitespace — including the leading tab — is
trimmed before splitting, so `\t10\t20` trims to `10\t20`, splits into only
two fields, and is rejected with the at-least-3-fields (malformed line)
error at line 1, not with the empty-region-name error. -/
theorem C3_amended_tab_line_malformed :
    trim_ws "\t10\t20".toList = "10\t20".toList ∧
    (split '\t' (trim_ws "\t10\t20".toList)).length = 2 ∧
    read_points_from_bed_file ⟨["\t10\t20".toList], .cleanEof⟩ =
      .error (.runtimeError (parsing_at_line_msg 1 ++ malformed_line_msg)) := by
  decide

/-- C9 (counterexample): on a fresh reader (zero lines read),
`current_line_number` does not fail fast: it returns the wrapped-around
`std::size_t` value of `0 - 1`, namely `2 ^ 64 - 1`. -/
theorem C9_counterexample_underflow_wrap :
    current_line_number 0 = size_t_mod - 1 := by
  decide

/-- C9 (amended): `current_line_number` has no underflow guard: called
before any successful read it returns the misleading wrapped-around value
`2 ^ 64 - 1` of the unsigned `0 - 1`; after `k ≥ 1` successful reads
(`k < 2 ^ 64`) it returns `k - 1`. -/
theorem C9_amended_no_underflow_guard :
    current_line_number 0 = size_t_mod - 1 ∧
    ∀ k : Nat, 0 < k → k < size_t_mod → current_line_number k = k - 1 := by
  constructor
  · decide
  · intro k h1 h2
    simp only [current_line_number, size_t_mod] at *
    omega

/-- Witness for C9: the amended statement at counts `0` and `3`. -/
theorem C9_witness :
    current_line_number 0 = size_t_mod - 1 ∧ current_line_number 3 = 2 :=
  ⟨C9_amended_no_underflow_guard.1,
   C9_amended_no_underflow_guard.2 3 (by decide) (by decide)⟩

/-- C4 (counterexample): when the stream fails with an I/O error (here
`errno 5`) after one good line, the surfaced error is a plain
`std::runtime_error` — `is_system_error` is `false` on it — so the original
`IoError` kind is not programmatically preserved. -/
theorem C4_counterexample_io_error_kind_lost :
    read_points_from_bed_file
        ⟨["chr1\t10\t20".toList], .ioError 5 "Input/output error".toList⟩ =
      .error (.runtimeError (parsing_at_line_msg 1 ++ "Input/output error".toList)) ∧
    CppError.is_system_error
        (.runtimeError (parsing_at_line_msg 1 ++ "Input/output error".toList)) = false := by
  decide

/-- C4 (amended): an I/O failure of the underlying stream aborts the parse,
but the `catch` clause catches the `std::system_error` (a subclass of
`std::runtime_error`) and rethrows a plain `std::runtime_error`: the caller
sees a runtime error whose message is the line-context prefix (1-based
number = lines successfully read) followed by the original system error
detail; the `IoError` kind is not preserved. -/
theorem C4_amended_io_error_wrapped_as_runtime
    (lines : List (List Char)) (code : Nat) (m : List Char) (st' : AggState)
    (hpre : process_all lines init_state = .ok st')
    (hlen : lines.length < size_t_mod) :
    read_points_from_bed_file ⟨lines, .ioError code m⟩ =
      .error (.runtimeError (parsing_at_line_msg lines.length ++ m)) := by
  show run_lines lines (.ioError code m) 0 init_state = _
  rw [run_lines_all_ok lines (.ioError code m) 0 init_state st' hpre]
  simp only [run_lines, Nat.zero_add]
  rw [wrap_line_context_eq lines.length hlen]
  rfl

/-- Witness for C4: a one-line stream ending in `errno 13`. -/
theorem C4_witness :
    read_points_from_bed_file
        ⟨["chr2\t0\t4".toList], .ioError 13 "Permission denied".toList⟩ =
      .error (.runtimeError (parsing_at_line_msg 1 ++ "Permission denied".toList)) :=
  C4_amended_io_error_wrapped_as_runtime ["chr2\t0\t4".toList] 13
    "Permission denied".toList ⟨[], [2], "chr2".toList⟩ (by decide) (by decide)

/-- C5 (confirmed): every region entry of a successful parse has its point
collection sorted non-decreasingly: adjacent points satisfy
`p[i] <= p[i+1]`.  Every entry on the result list was sealed through
`SortedVec.from_unsorted`, which sorts ascending. -/
theorem C5_result_points_sorted (file : BedFileStream) (res : List ProcessRegionData)
    (h : read_points_from_bed_file file = .ok res) :
    ∀ r ∈ res, ∀ (i : Nat) (hi : i + 1 < r.points.length),
      r.points.get ⟨i, Nat.lt_of_succ_lt hi⟩ ≤ r.points.get ⟨i + 1, hi⟩ := by
  intro r hr i hi
  have hsorted : List.Sorted (fun a b : Int => a ≤ b) r.points :=
    run_lines_ok_sorted file.lines file.ending 0 init_state res
      (by intro r0 hr0; simp [init_state] at hr0) h r hr
  exact hsorted.rel_get_of_lt (Fin.mk_lt_mk.mpr (Nat.lt_succ_self i))

/-- Witness for C5: the two-point `chr1` entry of the round-trip input;
its adjacent points satisfy `5 <= 10`. -/
theorem C5_witness : (5 : Int) ≤ 10 :=
  C5_result_points_sorted
    ⟨["# header".toList, "chr1\t10\t20".toList, "chr1\t30\t50".toList,
      "chr2\t5\t9".toList], .cleanEof⟩
    [⟨"chr1".toList, [5, 10]⟩] (by decide)
    ⟨"chr1".toList, [5, 10]⟩ (by decide) 0 (by decide)

/-- C6 (confirmed): for every successfully processed data line whose fields
parse to start `s` and end `e`, the point appended to the accumulator (its
new last element) is `(e - s) / 2` with truncating integer division. -/
theorem C6_derived_point_appended
    (raw : List Char) (st st' : AggState)
    (name sstr estr : List Char) (others : List (List Char)) (s e : Int)
    (hsplit : split '\t' (trim_ws raw) = name :: sstr :: estr :: others)
    (hcomment : starts_with '#' (trim_ws raw) = false)
    (hs : parse_int sstr = some s)
    (he : parse_int estr = some e)
    (hok : process_line raw st = .ok st') :
    st'.current_region_points.getLast? = some (derived_point s e) ∧
    derived_point s e = Int.tdiv (e - s) 2 := by
  refine ⟨?_, rfl⟩
  have hlen : ¬ ((split '\t' (trim_ws raw)).length < 3) := by
    rw [hsplit]; simp [List.length_cons]
  simp only [process_line] at hok
  rw [if_neg (by simp [hcomment] : ¬ (starts_with '#' (trim_ws raw) = true))] at hok
  rw [if_neg hlen, hsplit] at hok
  simp only [List.getD_cons_succ, List.getD_cons_zero, hs, he] at hok
  split at hok
  · simp at hok
  · split at hok
    · split at hok
      · simp at hok
      · cases hok
        simp
    · cases hok
      simp

/-- Witness for C6: processing `A\t10\t17` from the initial state appends
`(17 - 10) / 2 = 3`; the interval `(10, 15)` derives `2`. -/
theorem C6_witness :
    (AggState.current_region_points ⟨[], [3], "A".toList⟩).getLast? =
      some (derived_point 10 17) ∧
    derived_point 10 17 = 3 ∧ derived_point 10 15 = 2 :=
  ⟨(C6_derived_point_appended "A\t10\t17".toList init_state ⟨[], [3], "A".toList⟩
      "A".toList "10".toList "17".toList [] 10 17 (by decide) (by decide)
      (by decide) (by decide) (by decide)).1,
   by decide, by decide⟩

/-- C8 (confirmed): when the loop body fails on the line at 1-based physical
position `N` (the `N`-th line read, comments included), the surfaced error
is the wrapped runtime error whose message carries the line-context prefix
for `N` — computed as the reader's 0-based counter plus one — and the
decimal numeral of `N` occurs inside the message. -/
theorem C8_parse_error_line_number
    (pre : List (List Char)) (line : List Char) (rest : List (List Char))
    (ending : StreamEnd) (st' : AggState) (e : CppError)
    (hpre : process_all pre init_state = .ok st')
    (hline : process_line line st' = .error e)
    (hlen : pre.length + 1 < size_t_mod) :
    read_points_from_bed_file ⟨pre ++ line :: rest, ending⟩ =
      .error (.runtimeError (parsing_at_line_msg (pre.length + 1) ++ e.what)) ∧
    (Nat.repr (pre.length + 1)).toList <:+:
      parsing_at_line_msg (pre.length + 1) ++ e.what := by
  constructor
  · show run_lines (pre ++ line :: rest) ending 0 init_state = _
    rw [run_lines_append pre (line :: rest) ending 0 init_state st' hpre]
    simp only [run_lines, hline, Nat.zero_add]
    rw [wrap_line_context_eq _ hlen]
  · exact ⟨"Parsing BED file at line ".toList, ": ".toList ++ e.what,
      by simp [parsing_at_line_msg]⟩

/-- Witness for C8: a comment line followed by the inverted interval
`chr1\t5\t3` fails at 1-based line 2, and the message contains `2`. -/
theorem C8_witness :
    read_points_from_bed_file ⟨["# c".toList, "chr1\t5\t3".toList], .cleanEof⟩ =
      .error (.runtimeError (parsing_at_line_msg 2 ++ invalid_interval_msg)) ∧
    (Nat.repr 2).toList <:+: parsing_at_line_msg 2 ++ invalid_interval_msg :=
  C8_parse_error_line_number ["# c".toList] "chr1\t5\t3".toList [] .cleanEof
    init_state (.runtimeError invalid_interval_msg) (by decide) (by decide) (by decide)

/-- C10 (confirmed): every point of every region entry of a successful parse
is non-negative: each stored point is `(e - s) / 2` for a validated interval
with `s < e`, and sealing only sorts, so membership is preserved. -/
theorem C10_result_points_nonneg (file : BedFileStream) (res : List ProcessRegionData)
    (h : read_points_from_bed_file file = .ok res) :
    ∀ r ∈ res, ∀ p ∈ r.points, 0 ≤ p :=
  run_lines_ok_nonneg file.lines file.ending 0 init_state res
    (by intro r0 hr0; simp [init_state] at hr0)
    (by intro p hp; simp [init_state] at hp) h

/-- Witness for C10: the point `5` of the sealed `chr1` entry is
non-negative. -/
theorem C10_witness : (0 : Int) ≤ 5 :=
  C10_result_points_nonneg
    ⟨["chr1\t10\t20".toList, "chr2\t0\t4".toList], .cleanEof⟩
    [⟨"chr1".toList, [5]⟩] (by decide) ⟨"chr1".toList, [5]⟩ (by decide) 5 (by decide)

end HawkesInput
